import Mathlib

/-!
Verification of the NeonCRMLinkedIn extraction pipeline.

The repository extracts JSON payloads embedded in saved LinkedIn HTML pages
and flattens them to CSV/JSON tables.  We shallowly embed the relevant
Python code:

* Python values are modelled by `PyVal` (JSON-like data, with `PyVal.none`
  standing for Python `None` / pandas `NaN`).
* Fallible Python expressions are modelled in `Except PyErr`;
  a whole-process outcome (which can also be `sys.exit(1)`) is `Outcome`.
* pandas DataFrames are modelled by `PDF` (columns, index labels, rows).

Each definition mirrors one function of the source:
`extract_person_fields` / `extract_company_fields` embed the field-reading
loops of `read_html_file` in `extract_persons_html_to_json.py` /
`extract_companies_html_to_json.py`; `row_with_most_non_nans` and
`exclude_rows_with_x_nans` embed `utils.py`; the `locate_payload_*`
functions embed the code-block index selection; the `*Run*` functions
embed `get_all_information(s)`.
-/

namespace NeonCRM

/-- A Python/JSON value as it appears in the parsed payloads.
`PyVal.none` is Python `None` (JSON `null`), which pandas stores as `NaN`. -/
inductive PyVal where
  | none : PyVal
  | bool (b : Bool) : PyVal
  | int (n : Int) : PyVal
  | str (s : String) : PyVal
  | list (xs : List PyVal) : PyVal
  | dict (fields : List (String × PyVal)) : PyVal

/-- Python exception kinds raised by the modelled code. -/
inductive PyErr where
  | attributeError
  | keyError
  | typeError
  | indexError
  | valueError
  | jsonDecodeError
  deriving DecidableEq, Repr

/-- Is this value Python `None` (a pandas `NaN` cell)? -/
def PyVal.isNoneV : PyVal → Bool
  | .none => true
  | _ => false

/-- Is this value a Python dict? -/
def PyVal.isDict : PyVal → Bool
  | .dict _ => true
  | _ => false

/-- First binding of key `k` in a dict body (Python dict keys are unique,
so first = only). -/
def dictLookup : List (String × PyVal) → String → Option PyVal
  | [], _ => Option.none
  | (k, v) :: rest, key => if k = key then Option.some v else dictLookup rest key

/-- Python `d.get(key, default)` on a dict body. -/
def pyGet (fields : List (String × PyVal)) (key : String) (default : PyVal) : PyVal :=
  (dictLookup fields key).getD default

/-- Python `v.get(key, default)`: succeeds exactly on dicts; on any other
value (in particular `None`) the attribute access raises `AttributeError`. -/
def PyVal.get : PyVal → String → PyVal → Except PyErr PyVal
  | .dict fields, key, default => .ok (pyGet fields key default)
  | _, _, _ => .error .attributeError

/-- Python `v[key]` for a string key: `KeyError` when absent,
`TypeError` on non-dicts. -/
def pyIndexStr (v : PyVal) (key : String) : Except PyErr PyVal :=
  match v with
  | .dict fields =>
    match dictLookup fields key with
    | Option.some w => .ok w
    | Option.none => .error .keyError
  | _ => .error .typeError

/-- Python `for x in v`: lists iterate their elements, dicts their keys;
other values raise `TypeError`. -/
def pyIter (v : PyVal) : Except PyErr (List PyVal) :=
  match v with
  | .list xs => .ok xs
  | .dict fields => .ok (fields.map (fun p => PyVal.str p.1))
  | _ => .error .typeError

/-! ## Field extractors

A row is the ordered list of cell values; the column names are kept
alongside in `PDF`. -/

/-- Columns of the person variant (`extract_persons_html_to_json.py`). -/
def personCols : List String := ["name", "subtitle", "position", "linkedinUrl"]

/-- The body of the extraction loop of `read_html_file` in
`extract_persons_html_to_json.py`, applied to one element of `included`:
`lines.get("title", {}).get("text")` and friends. -/
def extract_person_fields (lines : PyVal) : Except PyErr (List PyVal) := do
  let t ← lines.get "title" (.dict [])
  let title ← t.get "text" .none
  let ps ← lines.get "primarySubtitle" (.dict [])
  let subtitle ← ps.get "text" .none
  let sm ← lines.get "summary" (.dict [])
  let position ← sm.get "text" .none
  let linkedinUrl ← lines.get "bserpEntityNavigationalUrl" .none
  return [title, subtitle, position, linkedinUrl]

/-- Columns of the company variant (`extract_companies_html_to_json.py`),
in the order of the row dict built by the source. -/
def companyCols : List String :=
  ["name", "tagline", "description", "websiteUrl", "foundedOn",
   "headquarterCity", "headquarterCountry", "geographicArea", "phone",
   "specialities", "employeeCountRangeStart", "employeeCountRangeEnd"]

/-- The body of the extraction loop of `read_html_file` in
`extract_companies_html_to_json.py`, applied to one element of `included`.
The statements follow the evaluation order of the source; the returned row
follows the column order of the row dict. -/
def extract_company_fields (lines : PyVal) : Except PyErr (List PyVal) := do
  let name ← lines.get "name" .none
  let tagline ← lines.get "tagline" .none
  let description ← lines.get "description" .none
  let fo ← lines.get "foundedOn" (.dict [])
  let foundedOn ← fo.get "year" .none
  let hq1 ← lines.get "headquarter" (.dict [])
  let ad1 ← hq1.get "address" (.dict [])
  let headquarterCity ← ad1.get "city" .none
  let hq2 ← lines.get "headquarter" (.dict [])
  let ad2 ← hq2.get "address" (.dict [])
  let headquarterCountry ← ad2.get "country" .none
  let hq3 ← lines.get "headquarter" (.dict [])
  let ad3 ← hq3.get "address" (.dict [])
  let geographicArea ← ad3.get "geographicArea" .none
  let websiteUrl ← lines.get "websiteUrl" .none
  let ph ← lines.get "phone" (.dict [])
  let phone ← ph.get "number" .none
  let ec1 ← lines.get "employeeCountRange" (.dict [])
  let employeeCountRangeStart ← ec1.get "start" .none
  let ec2 ← lines.get "employeeCountRange" (.dict [])
  let employeeCountRangeEnd ← ec2.get "end" .none
  let specialities ← lines.get "specialities" .none
  return [name, tagline, description, websiteUrl, foundedOn,
          headquarterCity, headquarterCountry, geographicArea, phone,
          specialities, employeeCountRangeStart, employeeCountRangeEnd]

/-- Columns of the general CSV variant (`extract_html_to_csv.py`). -/
def generalCols : List String := ["name", "subtitle", "linkedinurl"]

/-- The body of the extraction loop of `read_html_file` in
`extract_html_to_csv.py`, applied to one element of `included`. -/
def extract_person_fields_csv (j : PyVal) : Except PyErr (List PyVal) := do
  let t ← j.get "title" (.dict [])
  let title ← t.get "text" .none
  let ps ← j.get "primarySubtitle" (.dict [])
  let subtitle ← ps.get "text" .none
  let linkedinurl ← j.get "bserpEntityNavigationalUrl" .none
  return [title, subtitle, linkedinurl]

/-! ## DataFrame model and `utils.py` -/

/-- A pandas DataFrame: column names, index labels, and rows of cells.
Well-formed frames have `index.length = rows.length` and every row of
length `cols.length`. -/
structure PDF where
  cols : List String
  index : List Nat
  rows : List (List PyVal)

/-- The empty frame `pd.DataFrame()`. -/
def emptyPDF : PDF := ⟨[], [], []⟩

/-- `row.notna().sum()`: number of cells of a row that are not `NaN`. -/
def notnaCount (row : List PyVal) : Nat :=
  (row.filter (fun c => !c.isNoneV)).length

/-- Number of `NaN` cells of a row. -/
def nanCount (row : List PyVal) : Nat :=
  (row.filter (fun c => c.isNoneV)).length

/-- `Series.idxmax` on a list of counts: position and value of the first
occurrence of the maximum; `ValueError` (here `Option.none`) on an empty
series. -/
def idxmaxAux : List Nat → Option (Nat × Nat)
  | [] => Option.none
  | c :: rest =>
    match idxmaxAux rest with
    | Option.none => Option.some (0, c)
    | Option.some (j, v) =>
      if v > c then Option.some (j + 1, v) else Option.some (0, c)

/-- `utils.row_with_most_non_nans`: the 1-row frame
`pd.DataFrame([df.loc[df.notna().sum(axis=1).idxmax()]])`.  `idxmax` on an
empty frame raises `ValueError`. -/
def row_with_most_non_nans (df : PDF) : Except PyErr PDF :=
  match idxmaxAux (df.rows.map notnaCount) with
  | Option.none => .error .valueError
  | Option.some (p, _) =>
    match df.rows[p]?, df.index[p]? with
    | Option.some r, Option.some lbl => .ok ⟨df.cols, [lbl], [r]⟩
    | _, _ => .error .indexError

/-- `utils.exclude_rows_with_x_nans`:
`df.dropna(thresh=df.shape[1] - x)` keeps the rows having at least
`df.shape[1] - x` non-NaN cells, with their index labels. -/
def exclude_rows_with_x_nans (df : PDF) (x : Int) : PDF :=
  ⟨df.cols,
   ((df.index.zip df.rows).filter
     (fun p => decide ((notnaCount p.2 : Int) ≥ (df.cols.length : Int) - x))).map
     Prod.fst,
   ((df.index.zip df.rows).filter
     (fun p => decide ((notnaCount p.2 : Int) ≥ (df.cols.length : Int) - x))).map
     Prod.snd⟩

/-- `df.dropna()` with default arguments: drop every row containing at
least one `NaN` cell. -/
def dropna_any (df : PDF) : PDF :=
  ⟨df.cols,
   ((df.index.zip df.rows).filter (fun p => decide (nanCount p.2 = 0))).map
     Prod.fst,
   ((df.index.zip df.rows).filter (fun p => decide (nanCount p.2 = 0))).map
     Prod.snd⟩

/-! ## Payload locators

A document is abstracted as its list of stripped code-block texts; each
entry is `Option.some v` when the text parses as JSON value `v`, and
`Option.none` when `json.loads` would raise `JSONDecodeError`.  A document
is then `List (Option PyVal)`. -/

/-- Outcome of running a piece of the program: a value, the deliberate
`sys.exit(1)` fail-fast path, or an uncaught Python exception. -/
inductive Outcome (α : Type) where
  | ok (a : α)
  | exit1
  | raised (e : PyErr)

instance : Monad Outcome where
  pure := Outcome.ok
  bind := fun x f =>
    match x with
    | .ok a => f a
    | .exit1 => .exit1
    | .raised e => .raised e

/-- Lift a Python expression: an uncaught exception propagates. -/
def liftE : Except PyErr α → Outcome α
  | .ok a => .ok a
  | .error e => .raised e

/-- `ELEMENT_WITH_RELEVANT_DATA` of `extract_companies_html_to_json.py`. -/
def ELEMENT_WITH_RELEVANT_DATA : Nat := 20

/-- `ELEMENTS_WITH_RELEVANT_DATA` of `extract_persons_html_to_json.py`. -/
def ELEMENTS_WITH_RELEVANT_DATA : List Nat := [14, 16]

/-- The `try: js = json.loads(raw_data[ELEMENT_WITH_RELEVANT_DATA])`
block of the company variant: out-of-range indexing raises `IndexError`
(not caught: the `except` clause catches only `JSONDecodeError`), a parse
failure prints a diagnostic and exits with status 1. -/
def locate_payload_company (raw_data : List (Option PyVal)) : Outcome PyVal :=
  match raw_data[ELEMENT_WITH_RELEVANT_DATA]? with
  | Option.none => .raised .indexError
  | Option.some Option.none => .exit1
  | Option.some (Option.some v) => .ok v

/-- The candidate loop of the person variant: for each index of
`ELEMENTS_WITH_RELEVANT_DATA`, try `json.loads(raw_data[element])`;
a `JSONDecodeError` continues with the next candidate, a success breaks;
out-of-range indexing raises `IndexError` uncaught.  When the loop ends
without assigning `js` (checked via `locals()`), print a diagnostic and
exit with status 1. -/
def locatePersonAux (raw_data : List (Option PyVal)) : List Nat → Outcome PyVal
  | [] => .exit1
  | e :: rest =>
    match raw_data[e]? with
    | Option.none => .raised .indexError
    | Option.some Option.none => locatePersonAux raw_data rest
    | Option.some (Option.some v) => .ok v

/-- Payload location of `extract_persons_html_to_json.py`. -/
def locate_payload_person (raw_data : List (Option PyVal)) : Outcome PyVal :=
  locatePersonAux raw_data ELEMENTS_WITH_RELEVANT_DATA

/-- `js = json.loads(raw_data[16])` of `extract_html_to_csv.py`: no
`try` block at all, so both a parse failure and an out-of-range index
raise uncaught exceptions. -/
def locate_payload_general (raw_data : List (Option PyVal)) : Outcome PyVal :=
  match raw_data[16]? with
  | Option.none => .raised .indexError
  | Option.some Option.none => .raised .jsonDecodeError
  | Option.some (Option.some v) => .ok v

/-! ## pandas concatenation and serialization -/

/-- Insert into a sorted list of labels. -/
def insertSorted (n : Nat) : List Nat → List Nat
  | [] => [n]
  | m :: rest => if n ≤ m then n :: m :: rest else m :: insertSorted n rest

/-- Insertion sort on labels. -/
def sortNat : List Nat → List Nat
  | [] => []
  | n :: rest => insertSorted n (sortNat rest)

/-- `Index.union`: sorted deduplicated union of two label lists. -/
def sortedUnion (a b : List Nat) : List Nat := sortNat ((a ++ b).dedup)

/-- The cells of the row labelled `lbl`, or a full-`NaN` fill when the
label is absent from the frame. -/
def lookupRow (df : PDF) (lbl : Nat) : List PyVal :=
  match (df.index.zip df.rows).find? (fun p => p.1 == lbl) with
  | Option.some p => p.2
  | Option.none => List.replicate df.cols.length PyVal.none

/-- `pd.concat([a, b], axis=1)`: glue column-wise.  Identical indexes are
aligned positionally; otherwise rows are aligned on the sorted union of
the labels, `NaN`-filling where a label is missing (outer join).  Column
names are juxtaposed, duplicates included. -/
def concat_axis1 (a b : PDF) : PDF :=
  if a.index = b.index then
    ⟨a.cols ++ b.cols, a.index, (a.rows.zip b.rows).map (fun p => p.1 ++ p.2)⟩
  else
    let idx := sortedUnion a.index b.index
    ⟨a.cols ++ b.cols, idx, idx.map (fun l => lookupRow a l ++ lookupRow b l)⟩

/-- Reindex one row from columns `cols` to columns `newCols`,
`NaN`-filling the columns that do not exist in `cols`. -/
def reindexRow (cols newCols : List String) (r : List PyVal) : List PyVal :=
  newCols.map (fun c =>
    match cols.findIdx? (fun x => x == c) with
    | Option.some i => (r[i]?).getD PyVal.none
    | Option.none => PyVal.none)

/-- Column union in first-seen order. -/
def colUnion (c1 c2 : List String) : List String :=
  c1 ++ c2.filter (fun c => !c1.contains c)

/-- `pd.concat([a, b], ignore_index=True)` (default `axis=0`): stack rows
and renumber the index from 0.  Frames with equal columns stack directly;
otherwise rows are reindexed to the column union. -/
def concat_ignore_index (a b : PDF) : PDF :=
  if a.cols.isEmpty && a.rows.isEmpty then
    ⟨b.cols, List.range b.rows.length, b.rows⟩
  else if a.cols = b.cols then
    ⟨a.cols, List.range (a.rows.length + b.rows.length), a.rows ++ b.rows⟩
  else
    let cols := colUnion a.cols b.cols
    let rows := a.rows.map (reindexRow a.cols cols) ++
                b.rows.map (reindexRow b.cols cols)
    ⟨cols, List.range rows.length, rows⟩

/-- `df.to_json(..., orient="records", force_ascii=False)`: a JSON array
with one object per row; pandas raises
`ValueError: DataFrame columns must be unique for orient=records`
on duplicate column names. -/
def to_json_records (df : PDF) : Except PyErr PyVal :=
  if df.cols.Nodup then
    .ok (.list (df.rows.map (fun r => .dict (df.cols.zip r))))
  else .error .valueError

/-! ## `read_html_file` and the directory runs -/

/-- `for lines in js["included"]` in the company/person variants:
lists iterate elements, dicts iterate keys, anything else raises. -/
def iterIncluded (js : PyVal) : Except PyErr (List PyVal) := do
  pyIter (← pyIndexStr js "included")

/-- The `while iteration < length` loop driver of the general variant:
`len(js["included"])` plus integer indexing.  Integer-indexing a
non-empty dict raises `KeyError`; `len` of a scalar raises `TypeError`. -/
def pyLenIter (v : PyVal) : Except PyErr (List PyVal) :=
  match v with
  | .list xs => .ok xs
  | .dict fields => if fields.isEmpty then .ok [] else .error .keyError
  | .str s => .ok (s.data.map (fun c => PyVal.str (String.singleton c)))
  | _ => .error .typeError

/-- `read_html_file` of `extract_companies_html_to_json.py`, applied to
the stripped code-block texts of one document. -/
def read_html_file_company (doc : List (Option PyVal)) : Outcome PDF := do
  let js ← locate_payload_company doc
  let xs ← liftE (iterIncluded js)
  let rows ← liftE (xs.mapM extract_company_fields)
  return ⟨companyCols, List.range rows.length, rows⟩

/-- One iteration of the company directory loop:
`row_with_most_non_nans(read_html_file(file))`. -/
def processDocCompany (doc : List (Option PyVal)) : Outcome PDF := do
  let df ← read_html_file_company doc
  liftE (row_with_most_non_nans df)

/-- The `for file in directory.rglob` loop of the company
`get_all_information`, accumulating `data = pd.concat([data, row], axis=1)`. -/
def companyRunAux : PDF → List (List (Option PyVal)) → Outcome PDF
  | data, [] => .ok data
  | data, doc :: rest =>
    match processDocCompany doc with
    | .ok row => companyRunAux (concat_axis1 data row) rest
    | .exit1 => .exit1
    | .raised e => .raised e

/-- `get_all_information` of `extract_companies_html_to_json.py` over the
documents of a directory, ending with the single
`data.to_json(..., orient="records", force_ascii=False)` write.  An
`Outcome.ok` value is the JSON content written; `exit1` and `raised`
terminate the process before the output file is written. -/
def get_all_information_company (docs : List (List (Option PyVal))) :
    Outcome PyVal :=
  match companyRunAux emptyPDF docs with
  | .ok data => liftE (to_json_records data)
  | .exit1 => .exit1
  | .raised e => .raised e

/-- `read_html_file` of `extract_persons_html_to_json.py`. -/
def read_html_file_person (doc : List (Option PyVal)) : Outcome PDF := do
  let js ← locate_payload_person doc
  let xs ← liftE (iterIncluded js)
  let rows ← liftE (xs.mapM extract_person_fields)
  return ⟨personCols, List.range rows.length, rows⟩

/-- One iteration of the person directory loop:
`exclude_rows_with_x_nans(read_html_file(file), 2)`. -/
def processDocPerson (doc : List (Option PyVal)) : Outcome PDF := do
  let df ← read_html_file_person doc
  return exclude_rows_with_x_nans df 2

/-- The person directory loop, also accumulating with
`pd.concat([data, rows], axis=1)`. -/
def personRunAux : PDF → List (List (Option PyVal)) → Outcome PDF
  | data, [] => .ok data
  | data, doc :: rest =>
    match processDocPerson doc with
    | .ok rows => personRunAux (concat_axis1 data rows) rest
    | .exit1 => .exit1
    | .raised e => .raised e

/-- `get_all_information` of `extract_persons_html_to_json.py`. -/
def get_all_information_person (docs : List (List (Option PyVal))) :
    Outcome PyVal :=
  match personRunAux emptyPDF docs with
  | .ok data => liftE (to_json_records data)
  | .exit1 => .exit1
  | .raised e => .raised e

/-- `read_html_file` of `extract_html_to_csv.py` (the `data.json` debug
dump it also performs is a side artifact, not the run output). -/
def read_html_file_general (doc : List (Option PyVal)) : Outcome PDF := do
  let js ← locate_payload_general doc
  let included ← liftE (pyIndexStr js "included")
  let xs ← liftE (pyLenIter included)
  let rows ← liftE (xs.mapM extract_person_fields_csv)
  return ⟨generalCols, List.range rows.length, rows⟩

/-- The directory loop of `get_all_informations`:
`data = pd.concat([data, read_html_file(file).dropna()], ignore_index=True)`. -/
def generalRunAux : PDF → List (List (Option PyVal)) → Outcome PDF
  | data, [] => .ok data
  | data, doc :: rest =>
    match read_html_file_general doc with
    | .ok df => generalRunAux (concat_ignore_index data (dropna_any df)) rest
    | .exit1 => .exit1
    | .raised e => .raised e

/-- `get_all_informations` of `extract_html_to_csv.py`; an `Outcome.ok`
frame is what `main` then writes to `linkedin.csv`. -/
def get_all_informations_general (docs : List (List (Option PyVal))) :
    Outcome PDF :=
  generalRunAux emptyPDF docs

/-! ## File discovery

A directory listing is modelled as a finite tree; paths are lists of
name components (root-relative). -/

mutual
/-- One entry of a directory listing: a plain file or a subdirectory
with its own listing (in `os.listdir` order). -/
inductive FSEntry where
  | file (name : String) : FSEntry
  | dir (name : String) (children : FSList) : FSEntry
/-- A directory listing. -/
inductive FSList where
  | nil : FSList
  | cons (e : FSEntry) (rest : FSList) : FSList
end

/-- Does a name match the glob pattern `*.html`? -/
def endsWithHtml (n : String) : Bool := List.isSuffixOf ".html".data n.data

mutual
/-- Contribution of one entry to `get_all_files_in_folder`:
a file is appended, a directory is expanded recursively in place. -/
def filesOfEntry : FSEntry → List (List String)
  | .file n => [[n]]
  | .dir n cs => (get_all_files_in_folder cs).map (fun p => n :: p)
/-- `get_all_files_in_folder` of `extract_html_to_csv.py`: every file
found recursively, regardless of extension, in listing order with
directories expanded in place. -/
def get_all_files_in_folder : FSList → List (List String)
  | .nil => []
  | .cons e rest => filesOfEntry e ++ get_all_files_in_folder rest
end

mutual
/-- Contribution of one entry to `rglobHtml`. -/
def rglobHtmlEntry : FSEntry → List (List String)
  | .file n => if endsWithHtml n then [[n]] else []
  | .dir n cs =>
    (if endsWithHtml n then [[n]] else []) ++ (rglobHtml cs).map (fun p => n :: p)
/-- `Path(directory).rglob("*.html")` as used by the person and company
variants: every descendant entry (files, and also directories) whose
name matches `*.html`.  Only membership is modelled; the exact yield
order of `rglob` is not relied on by any claim. -/
def rglobHtml : FSList → List (List String)
  | .nil => []
  | .cons e rest => rglobHtmlEntry e ++ rglobHtml rest
end

mutual
/-- No directory of this entry (recursively) has a `*.html` name. -/
def noHtmlDirsEntry : FSEntry → Bool
  | .file _ => true
  | .dir n cs => !endsWithHtml n && noHtmlDirs cs
/-- No directory of this tree has a `*.html` name. -/
def noHtmlDirs : FSList → Bool
  | .nil => true
  | .cons e rest => noHtmlDirsEntry e && noHtmlDirs rest
end

/-- Modelled from the spec: `p` is the root-relative path of a file found
recursively in the tree, including subdirectories. -/
inductive IsFileAt : FSList → List String → Prop where
  | headFile (n : String) (rest : FSList) : IsFileAt (.cons (.file n) rest) [n]
  | headDir (n : String) (cs : FSList) (rest : FSList) (p : List String) :
      IsFileAt cs p → IsFileAt (.cons (.dir n cs) rest) (n :: p)
  | tail (e : FSEntry) (rest : FSList) (p : List String) :
      IsFileAt rest p → IsFileAt (.cons e rest) p

/-- Does the final component of a path match `*.html`? -/
def lastHtml : List String → Bool
  | [] => false
  | [n] => endsWithHtml n
  | _ :: rest => lastHtml rest

/-- What one head entry of a listing contributes to `IsFileAt`. -/
def entryFileProp (e : FSEntry) (p : List String) : Prop :=
  match e with
  | .file n => p = [n]
  | .dir n cs => ∃ q, p = n :: q ∧ IsFileAt cs q

/-! ## Spec-side defensive reads (for the field-defaulting claim) -/

/-- Modelled from the spec (field defaulting): read `fields[k1][k2]`,
returning `null` when any step is missing or is not an object. -/
def getSafe2 (fields : List (String × PyVal)) (k1 k2 : String) : PyVal :=
  match pyGet fields k1 (.dict []) with
  | .dict d => pyGet d k2 .none
  | _ => .none

/-- Modelled from the spec (field defaulting): read `fields[k1][k2][k3]`,
returning `null` when any step is missing or is not an object. -/
def getSafe3 (fields : List (String × PyVal)) (k1 k2 k3 : String) : PyVal :=
  match pyGet fields k1 (.dict []) with
  | .dict d => getSafe2 d k2 k3
  | _ => .none

/-- Is `fields.get("headquarter", {}).get("address", {})` a dict?  (The
shape under which the company extractor cannot raise on that chain.) -/
def addrIsDict (fields : List (String × PyVal)) : Bool :=
  match pyGet fields "headquarter" (.dict []) with
  | .dict d => (pyGet d "address" (.dict [])).isDict
  | _ => false

/-! ## Basic lemmas -/

@[simp]
theorem Outcome.bind_ok {α β : Type} (a : α) (f : α → Outcome β) :
    (Outcome.ok a >>= f) = f a := rfl

@[simp]
theorem Outcome.bind_exit1 {α β : Type} (f : α → Outcome β) :
    (Outcome.exit1 >>= f) = (Outcome.exit1 : Outcome β) := rfl

@[simp]
theorem Outcome.bind_raised {α β : Type} (e : PyErr) (f : α → Outcome β) :
    (Outcome.raised e >>= f) = (Outcome.raised e : Outcome β) := rfl

@[simp]
theorem Except.bind_ok_l {ε α β : Type} (a : α) (f : α → Except ε β) :
    (Except.ok a >>= f : Except ε β) = f a := rfl

@[simp]
theorem Except.bind_error_l {ε α β : Type} (e : ε) (f : α → Except ε β) :
    (Except.error e >>= f : Except ε β) = .error e := rfl

@[simp]
theorem except_pure_eq_ok {ε α : Type} (a : α) :
    (pure a : Except ε α) = .ok a := rfl

/-- A value with `isDict = true` is a dict. -/
theorem isDict_exists {v : PyVal} (h : v.isDict = true) :
    ∃ d, v = PyVal.dict d := by
  cases v <;> simp_all [PyVal.isDict]

/-! ## Claim theorems -/

/-- C1 counterexample: a record in which the key `title` is present with
value `null`.  The person Field Extractor evaluates
`lines.get("title", {}).get("text")`; the inner `get` returns the stored
`None`, and `None.get(...)` raises `AttributeError` — extraction raises
even though the claim says any null intermediate yields a null output
field without raising. -/
theorem null_intermediate_raises :
    dictLookup [("title", PyVal.none)] "title" = Option.some PyVal.none ∧
    extract_person_fields (.dict [("title", PyVal.none)]) =
      .error .attributeError :=
  ⟨rfl, rfl⟩

/-- C1 (amended): for records whose relevant intermediate values, when
present, are JSON objects, both Field Extractors return without raising,
and every missing key at any depth of the nested paths yields a null
output field (the result is exactly the defensive reads `getSafe2` /
`getSafe3`, which default to null on missing keys).  When an intermediate
is present but null (or any non-object), extraction instead raises
`AttributeError`, as shown by the counterexample. -/
theorem field_defaulting_on_missing_keys
    (pf cf : List (String × PyVal))
    (h1 : (pyGet pf "title" (.dict [])).isDict = true)
    (h2 : (pyGet pf "primarySubtitle" (.dict [])).isDict = true)
    (h3 : (pyGet pf "summary" (.dict [])).isDict = true)
    (h4 : (pyGet cf "foundedOn" (.dict [])).isDict = true)
    (h5 : (pyGet cf "headquarter" (.dict [])).isDict = true)
    (h6 : addrIsDict cf = true)
    (h7 : (pyGet cf "phone" (.dict [])).isDict = true)
    (h8 : (pyGet cf "employeeCountRange" (.dict [])).isDict = true) :
    extract_person_fields (.dict pf) =
      .ok [getSafe2 pf "title" "text", getSafe2 pf "primarySubtitle" "text",
           getSafe2 pf "summary" "text",
           pyGet pf "bserpEntityNavigationalUrl" .none] ∧
    extract_company_fields (.dict cf) =
      .ok [pyGet cf "name" .none, pyGet cf "tagline" .none,
           pyGet cf "description" .none, pyGet cf "websiteUrl" .none,
           getSafe2 cf "foundedOn" "year",
           getSafe3 cf "headquarter" "address" "city",
           getSafe3 cf "headquarter" "address" "country",
           getSafe3 cf "headquarter" "address" "geographicArea",
           getSafe2 cf "phone" "number", pyGet cf "specialities" .none,
           getSafe2 cf "employeeCountRange" "start",
           getSafe2 cf "employeeCountRange" "end"] := by
  obtain ⟨dT, hT⟩ := isDict_exists h1
  obtain ⟨dP, hP⟩ := isDict_exists h2
  obtain ⟨dS, hS⟩ := isDict_exists h3
  obtain ⟨dF, hF⟩ := isDict_exists h4
  obtain ⟨dH, hH⟩ := isDict_exists h5
  have h6b : (pyGet dH "address" (.dict [])).isDict = true := by
    simp only [addrIsDict, hH] at h6
    exact h6
  obtain ⟨dA, hA⟩ := isDict_exists h6b
  obtain ⟨dPh, hPh⟩ := isDict_exists h7
  obtain ⟨dE, hE⟩ := isDict_exists h8
  constructor
  · simp [extract_person_fields, PyVal.get, hT, hP, hS, getSafe2]
  · simp [extract_company_fields, PyVal.get, hF, hH, hA, hPh, hE,
          getSafe2, getSafe3]

/-- A person record whose `title` is an (empty) object and whose other
source keys are all missing. -/
def pfW : List (String × PyVal) := [("title", PyVal.dict [])]

/-- C1 witness: on a record with every nested key missing (at the top or
below a present intermediate object), extraction returns all-null rows
and does not raise. -/
theorem field_defaulting_on_missing_keys_witness :
    ((pyGet pfW "title" (.dict [])).isDict = true ∧
      addrIsDict ([] : List (String × PyVal)) = true) ∧
    (extract_person_fields (.dict pfW) =
      .ok [getSafe2 pfW "title" "text", getSafe2 pfW "primarySubtitle" "text",
           getSafe2 pfW "summary" "text",
           pyGet pfW "bserpEntityNavigationalUrl" .none] ∧
     extract_company_fields (.dict []) =
      .ok [pyGet [] "name" .none, pyGet [] "tagline" .none,
           pyGet [] "description" .none, pyGet [] "websiteUrl" .none,
           getSafe2 [] "foundedOn" "year",
           getSafe3 [] "headquarter" "address" "city",
           getSafe3 [] "headquarter" "address" "country",
           getSafe3 [] "headquarter" "address" "geographicArea",
           getSafe2 [] "phone" "number", pyGet [] "specialities" .none,
           getSafe2 [] "employeeCountRange" "start",
           getSafe2 [] "employeeCountRange" "end"]) ∧
    extract_person_fields (.dict pfW) = .ok [.none, .none, .none, .none] ∧
    extract_company_fields (.dict []) =
      .ok (List.replicate 12 PyVal.none) :=
  ⟨⟨rfl, rfl⟩,
   field_defaulting_on_missing_keys pfW [] rfl rfl rfl rfl rfl rfl rfl rfl,
   rfl, rfl⟩

/-- C7: the person Field Extractor applied to the record
`{"title":{"text":"Jane Doe"},"primarySubtitle":{"text":"Engineer"},
"bserpEntityNavigationalUrl":"https://x"}` yields exactly the row
`{"name":"Jane Doe","subtitle":"Engineer","position":null,
"linkedinUrl":"https://x"}` (name from title.text, subtitle from
primarySubtitle.text, position from summary.text and null when absent,
linkedinUrl from bserpEntityNavigationalUrl). -/
theorem person_extractor_round_trip :
    extract_person_fields
      (.dict [("title", .dict [("text", .str "Jane Doe")]),
              ("primarySubtitle", .dict [("text", .str "Engineer")]),
              ("bserpEntityNavigationalUrl", .str "https://x")]) =
    .ok [.str "Jane Doe", .str "Engineer", .none, .str "https://x"] := rfl

/-- C9: whenever the list of extracted code blocks is too short for the
configured payload index (20 for the company variant, 14 for the person
variant, 16 for the general variant), indexing raises an `IndexError`
that propagates uncaught out of `read_html_file` instead of reaching the
diagnostic fail-fast exit, because the `except` clauses catch only
`json.decoder.JSONDecodeError`. -/
theorem short_code_list_uncaught_index_error (raw : List (Option PyVal)) :
    (raw.length ≤ 20 →
      locate_payload_company raw = .raised .indexError ∧
      read_html_file_company raw = .raised .indexError) ∧
    (raw.length ≤ 14 →
      locate_payload_person raw = .raised .indexError ∧
      read_html_file_person raw = .raised .indexError) ∧
    (raw.length ≤ 16 →
      locate_payload_general raw = .raised .indexError ∧
      read_html_file_general raw = .raised .indexError) := by
  refine ⟨fun h => ?_, fun h => ?_, fun h => ?_⟩
  · have h20 : raw[(20 : Nat)]? = Option.none := List.getElem?_eq_none h
    have hl : locate_payload_company raw = .raised .indexError := by
      simp [locate_payload_company, ELEMENT_WITH_RELEVANT_DATA, h20]
    exact ⟨hl, by simp [read_html_file_company, hl]⟩
  · have h14 : raw[(14 : Nat)]? = Option.none := List.getElem?_eq_none h
    have hl : locate_payload_person raw = .raised .indexError := by
      simp [locate_payload_person, ELEMENTS_WITH_RELEVANT_DATA,
            locatePersonAux, h14]
    exact ⟨hl, by simp [read_html_file_person, hl]⟩
  · have h16 : raw[(16 : Nat)]? = Option.none := List.getElem?_eq_none h
    have hl : locate_payload_general raw = .raised .indexError := by
      simp [locate_payload_general, h16]
    exact ⟨hl, by simp [read_html_file_general, hl]⟩

/-- C9 witness: the empty code-block list. -/
theorem short_code_list_uncaught_index_error_witness :
    ([] : List (Option PyVal)).length ≤ 20 ∧
    read_html_file_company [] = .raised .indexError :=
  ⟨by decide,
   ((short_code_list_uncaught_index_error []).1 (by decide)).2⟩

/-- C6: the person Payload Locator tries the candidate indices 14 then
16, uses the JSON parse of the first candidate that parses (ignoring the
later candidate), and when both candidates fail to parse the run prints
a diagnostic and exits with status 1 (modelled as `Outcome.exit1`, which
`get_all_information` propagates). -/
theorem person_payload_locator_spec (raw : List (Option PyVal)) (v : PyVal)
    (rest : List (List (Option PyVal))) :
    (raw[14]? = Option.some (Option.some v) →
      locate_payload_person raw = .ok v) ∧
    (raw[14]? = Option.some Option.none →
      raw[16]? = Option.some (Option.some v) →
      locate_payload_person raw = .ok v) ∧
    (raw[14]? = Option.some Option.none →
      raw[16]? = Option.some Option.none →
      locate_payload_person raw = .exit1 ∧
      get_all_information_person (raw :: rest) = .exit1) := by
  refine ⟨fun h14 => ?_, fun h14 h16 => ?_, fun h14 h16 => ?_⟩
  · simp [locate_payload_person, ELEMENTS_WITH_RELEVANT_DATA,
          locatePersonAux, h14]
  · simp [locate_payload_person, ELEMENTS_WITH_RELEVANT_DATA,
          locatePersonAux, h14, h16]
  · have hl : locate_payload_person raw = .exit1 := by
      simp [locate_payload_person, ELEMENTS_WITH_RELEVANT_DATA,
            locatePersonAux, h14, h16]
    refine ⟨hl, ?_⟩
    simp [get_all_information_person, personRunAux, processDocPerson,
          read_html_file_person, hl]

/-- The first-argmax contract of `idxmaxAux`: it returns a position
holding the maximum, and every earlier position holds a strictly
smaller value. -/
theorem idxmaxAux_spec (l : List Nat) (h : l ≠ []) :
    ∃ p v, idxmaxAux l = Option.some (p, v) ∧ l[p]? = Option.some v ∧
      (∀ c ∈ l, c ≤ v) ∧
      (∀ q c, q < p → l[q]? = Option.some c → c < v) := by
  induction l with
  | nil => exact absurd rfl h
  | cons c rest ih =>
    cases rest with
    | nil =>
      refine ⟨0, c, by simp [idxmaxAux], rfl, ?_, ?_⟩
      · intro x hx
        simp only [List.mem_singleton] at hx
        omega
      · intro q x hq _
        omega
    | cons c2 l2 =>
      obtain ⟨j, v, hEq, hGet, hMax, hFirst⟩ := ih (by simp)
      by_cases hvc : v > c
      · refine ⟨j + 1, v, ?_, ?_, ?_, ?_⟩
        · rw [idxmaxAux, hEq]
          simp [hvc]
        · simpa using hGet
        · intro x hx
          rcases List.mem_cons.mp hx with h1 | h2
          · omega
          · exact hMax x h2
        · intro q x hq hget
          cases q with
          | zero =>
            simp only [List.getElem?_cons_zero, Option.some.injEq] at hget
            omega
          | succ q2 =>
            exact hFirst q2 x (by omega) (by simpa using hget)
      · refine ⟨0, c, ?_, rfl, ?_, ?_⟩
        · rw [idxmaxAux, hEq]
          simp [hvc]
        · intro x hx
          rcases List.mem_cons.mp hx with h1 | h2
          · omega
          · have := hMax x h2
            omega
        · intro q x hq _
          omega

/-- C4: on a non-empty frame, `row_with_most_non_nans` returns exactly
one row, the row with the maximum count of non-null fields, and on ties
the first row (in order of occurrence) attaining that maximum. -/
theorem best_row_selector_spec (df : PDF) (hne : df.rows ≠ [])
    (hlen : df.index.length = df.rows.length) :
    ∃ (p : Nat) (r : List PyVal) (df1 : PDF),
      df.rows[p]? = Option.some r ∧
      row_with_most_non_nans df = .ok df1 ∧ df1.rows = [r] ∧
      (∀ r2 ∈ df.rows, notnaCount r2 ≤ notnaCount r) ∧
      (∀ (q : Nat) (r2 : List PyVal), q < p →
        df.rows[q]? = Option.some r2 →
        notnaCount r2 < notnaCount r) := by
  have hmap : df.rows.map notnaCount ≠ [] := by simpa using hne
  obtain ⟨p, v, hEq, hGet, hMax, hFirst⟩ := idxmaxAux_spec _ hmap
  rw [List.getElem?_map] at hGet
  cases hr : df.rows[p]? with
  | none => rw [hr] at hGet; simp at hGet
  | some r =>
    rw [hr] at hGet
    simp at hGet
    have hp : p < df.rows.length := (List.getElem?_eq_some.mp hr).1
    have hidx : p < df.index.length := by omega
    have hlbl : df.index[p]? = Option.some df.index[p] :=
      List.getElem?_eq_getElem hidx
    refine ⟨p, r, ⟨df.cols, [df.index[p]], [r]⟩, hr, ?_, rfl, ?_, ?_⟩
    · simp [row_with_most_non_nans, hEq, hr, hlbl]
    · intro r2 hr2
      have hm : notnaCount r2 ∈ df.rows.map notnaCount :=
        List.mem_map_of_mem _ hr2
      have := hMax _ hm
      omega
    · intro q r2 hq hget2
      have hm : (df.rows.map notnaCount)[q]? = Option.some (notnaCount r2) := by
        rw [List.getElem?_map, hget2]
        rfl
      have := hFirst q (notnaCount r2) hq hm
      omega

/-- A frame whose rows have non-null counts 3, 1, 4, 4. -/
def dfBest : PDF :=
  ⟨personCols, [0, 1, 2, 3],
   [[.str "a", .str "b", .str "c", .none],
    [.str "d", .none, .none, .none],
    [.str "e", .str "f", .str "g", .str "h"],
    [.str "i", .str "j", .str "k", .str "l"]]⟩

/-- C4 witness: on counts 3, 1, 4, 4 the selector picks the row at
position 2, the first one attaining the maximum 4. -/
theorem best_row_selector_spec_witness :
    (dfBest.rows ≠ [] ∧ dfBest.index.length = dfBest.rows.length) ∧
    (∃ (p : Nat) (r : List PyVal) (df1 : PDF),
      dfBest.rows[p]? = Option.some r ∧
      row_with_most_non_nans dfBest = .ok df1 ∧ df1.rows = [r] ∧
      (∀ r2 ∈ dfBest.rows, notnaCount r2 ≤ notnaCount r) ∧
      (∀ (q : Nat) (r2 : List PyVal), q < p →
        dfBest.rows[q]? = Option.some r2 →
        notnaCount r2 < notnaCount r)) ∧
    row_with_most_non_nans dfBest =
      .ok ⟨personCols, [2], [[.str "e", .str "f", .str "g", .str "h"]]⟩ :=
  ⟨⟨List.cons_ne_nil _ _, rfl⟩,
   best_row_selector_spec dfBest (List.cons_ne_nil _ _) rfl,
   rfl⟩

@[simp]
theorem outcome_pure_eq_ok {α : Type} (a : α) :
    (pure a : Outcome α) = .ok a := rfl

/-- A company payload with a single record named Acme. -/
def payloadA : PyVal :=
  .dict [("included", .list [.dict [("name", .str "Acme")]])]

/-- A company payload with a single record named Globex. -/
def payloadB : PyVal :=
  .dict [("included", .list [.dict [("name", .str "Globex")]])]

/-- A document whose code block at index 20 parses to `payloadA`. -/
def docA : List (Option PyVal) :=
  List.replicate 20 Option.none ++ [Option.some payloadA]

/-- A document whose code block at index 20 parses to `payloadB`. -/
def docB : List (Option PyVal) :=
  List.replicate 20 Option.none ++ [Option.some payloadB]

/-- C2 (code bug): on a directory of two well-formed company documents,
each contributing one selected row, the accumulated frame after the loop
has ONE row and the twelve company columns duplicated (because
`get_all_information` concatenates with `pd.concat(..., axis=1)`,
column-wise), and the final `to_json(orient="records")` raises
`ValueError` on the duplicate column names — the run crashes instead of
writing the two-row JSON array the spec describes. -/
theorem axis1_concat_breaks_two_document_run :
    (∃ data, companyRunAux emptyPDF [docA, docB] = .ok data ∧
      data.rows.length = 1 ∧ data.cols = companyCols ++ companyCols) ∧
    get_all_information_company [docA, docB] = .raised .valueError := by
  constructor
  · exact ⟨_, rfl, rfl, rfl⟩
  · rfl

/-- A document whose code block at index 20 exists but fails to parse. -/
def badDoc : List (Option PyVal) := List.replicate 21 Option.none

/-- A document whose code block at index 16 exists but fails to parse. -/
def badDocG : List (Option PyVal) := List.replicate 17 Option.none

/-- The company run exits as soon as one document (preceded by
well-processed ones) hits the fail-fast parse exit. -/
theorem companyRunAux_exit1 (good : List (List (Option PyVal))) :
    ∀ (acc : PDF) (bad : List (Option PyVal))
      (rest : List (List (Option PyVal))),
      (∀ d ∈ good, ∃ df, processDocCompany d = .ok df) →
      processDocCompany bad = .exit1 →
      companyRunAux acc (good ++ bad :: rest) = .exit1 := by
  induction good with
  | nil =>
    intro acc bad rest _ hbad
    simp [companyRunAux, hbad]
  | cons g gs ih =>
    intro acc bad rest hgood hbad
    obtain ⟨df, hdf⟩ := hgood g (by simp)
    simp only [List.cons_append, companyRunAux, hdf]
    exact ih _ bad rest (fun d hd => hgood d (by simp [hd])) hbad

/-- The general run propagates the uncaught `JSONDecodeError` as soon as
one document (preceded by well-read ones) fails to parse. -/
theorem generalRunAux_raised (good : List (List (Option PyVal))) :
    ∀ (acc : PDF) (bad : List (Option PyVal))
      (rest : List (List (Option PyVal))),
      (∀ d ∈ good, ∃ df, read_html_file_general d = .ok df) →
      read_html_file_general bad = .raised .jsonDecodeError →
      generalRunAux acc (good ++ bad :: rest) = .raised .jsonDecodeError := by
  induction good with
  | nil =>
    intro acc bad rest _ hbad
    simp [generalRunAux, hbad]
  | cons g gs ih =>
    intro acc bad rest hgood hbad
    obtain ⟨df, hdf⟩ := hgood g (by simp)
    simp only [List.cons_append, generalRunAux, hdf]
    exact ih _ bad rest (fun d hd => hgood d (by simp [hd])) hbad

/-- C3: when the text at the single configured code-block index fails to
parse as JSON, the run terminates the whole process before any output
file is written — the company variant through the diagnostic
`sys.exit(1)` fail-fast path, the general variant through the uncaught
`JSONDecodeError` — with no continuation to the remaining files.  (In
this model an output file exists only for an `Outcome.ok` run result.) -/
theorem parse_failure_fail_fast
    (good : List (List (Option PyVal))) (bad : List (Option PyVal))
    (rest : List (List (Option PyVal)))
    (goodG : List (List (Option PyVal))) (badG : List (Option PyVal))
    (restG : List (List (Option PyVal)))
    (hgood : ∀ d ∈ good, ∃ df, processDocCompany d = .ok df)
    (hbad : bad[20]? = Option.some Option.none)
    (hgoodG : ∀ d ∈ goodG, ∃ df, read_html_file_general d = .ok df)
    (hbadG : badG[16]? = Option.some Option.none) :
    get_all_information_company (good ++ bad :: rest) = .exit1 ∧
    get_all_informations_general (goodG ++ badG :: restG) =
      .raised .jsonDecodeError := by
  constructor
  · have hb : processDocCompany bad = .exit1 := by
      simp [processDocCompany, read_html_file_company, locate_payload_company,
            ELEMENT_WITH_RELEVANT_DATA, hbad]
    have hrun := companyRunAux_exit1 good emptyPDF bad rest hgood hb
    simp [get_all_information_company, hrun]
  · have hb : read_html_file_general badG = .raised .jsonDecodeError := by
      simp [read_html_file_general, locate_payload_general, hbadG]
    have hrun := generalRunAux_raised goodG emptyPDF badG restG hgoodG hb
    simpa [get_all_informations_general] using hrun

/-- C3 witness: a good document followed by an unparseable one exits the
company run; a directory whose single document is unparseable kills the
general run with the uncaught exception. -/
theorem parse_failure_fail_fast_witness :
    (badDoc[20]? = Option.some Option.none ∧
     badDocG[16]? = Option.some Option.none) ∧
    get_all_information_company [docA, badDoc] = .exit1 ∧
    get_all_informations_general [badDocG] = .raised .jsonDecodeError :=
  ⟨⟨rfl, rfl⟩,
   (parse_failure_fail_fast [docA] badDoc [] [] badDocG []
      (by
        intro d hd
        simp only [List.mem_singleton] at hd
        subst hd
        exact ⟨_, rfl⟩)
      rfl (by intro d hd; simp at hd) rfl).1,
   (parse_failure_fail_fast [docA] badDoc [] [] badDocG []
      (by
        intro d hd
        simp only [List.mem_singleton] at hd
        subst hd
        exact ⟨_, rfl⟩)
      rfl (by intro d hd; simp at hd) rfl).2⟩

/-- Non-NaN and NaN cells partition a row. -/
theorem notna_add_nan (r : List PyVal) :
    notnaCount r + nanCount r = r.length := by
  induction r with
  | nil => rfl
  | cons c rest ih =>
    simp only [notnaCount, nanCount, List.filter_cons] at *
    cases hc : c.isNoneV <;> simp [hc] <;> omega

/-- Filtering label/row pairs on the row and projecting the rows is the
same as filtering the rows. -/
theorem zip_filter_map_snd (idx : List Nat) (rows : List (List PyVal))
    (hlen : idx.length = rows.length) (f : List PyVal → Bool) :
    ((idx.zip rows).filter (fun p => f p.2)).map Prod.snd = rows.filter f := by
  induction rows generalizing idx with
  | nil =>
    cases idx with
    | nil => rfl
    | cons i irest => simp at hlen
  | cons r rest ih =>
    cases idx with
    | nil => simp at hlen
    | cons i irest =>
      have hl2 : irest.length = rest.length := by simpa using hlen
      simp only [List.zip_cons_cons, List.filter_cons]
      cases hf : f r <;> simp [hf, ih irest hl2]

/-- `zip_filter_map_snd` at the dropna-threshold predicate. -/
theorem zip_filter_thresh (idx : List Nat) (rows : List (List PyVal))
    (hlen : idx.length = rows.length) (t : Int) :
    ((idx.zip rows).filter
      (fun p => decide ((notnaCount p.2 : Int) ≥ t))).map Prod.snd =
      rows.filter (fun r => decide ((notnaCount r : Int) ≥ t)) :=
  zip_filter_map_snd idx rows hlen (fun r => decide ((notnaCount r : Int) ≥ t))

/-- `zip_filter_map_snd` at the no-NaN predicate. -/
theorem zip_filter_nonan (idx : List Nat) (rows : List (List PyVal))
    (hlen : idx.length = rows.length) :
    ((idx.zip rows).filter (fun p => decide (nanCount p.2 = 0))).map Prod.snd =
      rows.filter (fun r => decide (nanCount r = 0)) :=
  zip_filter_map_snd idx rows hlen (fun r => decide (nanCount r = 0))

/-- C5: `exclude_rows_with_x_nans` retains exactly the rows whose count
of null fields is at most `x`, in their original order: the kept rows
are literally the filter of the row list by `nanCount ≤ x`. -/
theorem threshold_drop_spec (df : PDF) (x : Int)
    (hw : ∀ r ∈ df.rows, r.length = df.cols.length)
    (hlen : df.index.length = df.rows.length) :
    (exclude_rows_with_x_nans df x).rows =
      df.rows.filter (fun r => decide ((nanCount r : Int) ≤ x)) := by
  unfold exclude_rows_with_x_nans
  dsimp only
  rw [zip_filter_thresh df.index df.rows hlen]
  apply List.filter_congr
  intro r hr
  rw [decide_eq_decide]
  have h1 := notna_add_nan r
  have h2 := hw r hr
  omega

/-- A frame whose rows have null counts 0, 1, 2, 3, 4. -/
def dfTh : PDF :=
  ⟨personCols, [0, 1, 2, 3, 4],
   [[.str "a", .str "b", .str "c", .str "d"],
    [.str "a", .str "b", .str "c", .none],
    [.str "a", .str "b", .none, .none],
    [.str "a", .none, .none, .none],
    [.none, .none, .none, .none]]⟩

/-- C5 witness: with threshold 2 on null counts 0..4, exactly the three
rows with at most 2 nulls are retained. -/
theorem threshold_drop_spec_witness :
    ((∀ r ∈ dfTh.rows, r.length = dfTh.cols.length) ∧
      dfTh.index.length = dfTh.rows.length) ∧
    (exclude_rows_with_x_nans dfTh 2).rows =
      dfTh.rows.filter (fun r => decide ((nanCount r : Int) ≤ (2 : Int))) ∧
    (exclude_rows_with_x_nans dfTh 2).rows.length = 3 :=
  ⟨⟨by decide, rfl⟩, threshold_drop_spec dfTh 2 (by decide) rfl, rfl⟩

/-- Every successful `read_html_file` of the general variant yields the
three general columns with a fresh 0-based index. -/
theorem read_general_ok (doc : List (Option PyVal)) (df : PDF)
    (h : read_html_file_general doc = .ok df) :
    ∃ rows, df = ⟨generalCols, List.range rows.length, rows⟩ := by
  unfold read_html_file_general at h
  cases hl : locate_payload_general doc with
  | exit1 => rw [hl] at h; simp at h
  | raised e => rw [hl] at h; simp at h
  | ok js =>
    rw [hl] at h
    simp only [Outcome.bind_ok] at h
    cases hi : pyIndexStr js "included" with
    | error e => rw [hi] at h; simp [liftE] at h
    | ok inc =>
      rw [hi] at h
      simp only [liftE, Outcome.bind_ok] at h
      cases hx : pyLenIter inc with
      | error e => rw [hx] at h; simp [liftE] at h
      | ok xs =>
        rw [hx] at h
        simp only [liftE, Outcome.bind_ok] at h
        cases hm : xs.mapM extract_person_fields_csv with
        | error e => rw [hm] at h; simp [liftE] at h
        | ok rows =>
          rw [hm] at h
          simp only [liftE, Outcome.bind_ok, outcome_pure_eq_ok,
                     Outcome.ok.injEq] at h
          exact ⟨rows, h.symm⟩

/-- Invariant of the general-run accumulator: still the initial empty
frame, or a frame with the general columns and no null cell anywhere. -/
def goodAcc (acc : PDF) : Prop :=
  (acc.cols = [] ∧ acc.rows = []) ∨
  (acc.cols = generalCols ∧ ∀ r ∈ acc.rows, nanCount r = 0)

/-- One general-run loop step preserves the accumulator invariant. -/
theorem concat_preserves_goodAcc (acc : PDF) (rows : List (List PyVal))
    (hacc : goodAcc acc) :
    goodAcc (concat_ignore_index acc
      (dropna_any ⟨generalCols, List.range rows.length, rows⟩)) := by
  have hdrop : (dropna_any ⟨generalCols, List.range rows.length, rows⟩).rows =
      rows.filter (fun r => decide (nanCount r = 0)) := by
    dsimp [dropna_any]
    exact zip_filter_nonan _ _ (by simp)
  have hbrows : ∀ r ∈ (dropna_any
      ⟨generalCols, List.range rows.length, rows⟩).rows, nanCount r = 0 := by
    intro r hr
    rw [hdrop] at hr
    simpa using List.of_mem_filter hr
  rcases hacc with ⟨hc, hr0⟩ | ⟨hc, hall⟩
  · rw [concat_ignore_index, if_pos (by simp [hc, hr0])]
    exact Or.inr ⟨rfl, fun r hr => hbrows r hr⟩
  · rw [concat_ignore_index, if_neg (by simp [hc, generalCols]),
        if_pos (by rw [hc]; rfl)]
    refine Or.inr ⟨hc, ?_⟩
    intro r hr
    rcases List.mem_append.mp hr with h1 | h2
    · exact hall r h1
    · exact hbrows r h2

/-- All rows of a successfully finished general run have no null cell. -/
theorem generalRunAux_nonan (docs : List (List (Option PyVal))) :
    ∀ (acc : PDF) (out : PDF), goodAcc acc →
      generalRunAux acc docs = .ok out →
      ∀ r ∈ out.rows, nanCount r = 0 := by
  induction docs with
  | nil =>
    intro acc out hacc hrun r hr
    simp only [generalRunAux, Outcome.ok.injEq] at hrun
    subst hrun
    rcases hacc with ⟨_, hr0⟩ | ⟨_, hall⟩
    · rw [hr0] at hr
      simp at hr
    · exact hall r hr
  | cons doc docs ih =>
    intro acc out hacc hrun r hr
    cases hd : read_html_file_general doc with
    | exit1 =>
      simp only [generalRunAux, hd] at hrun
      exact Outcome.noConfusion hrun
    | raised e =>
      simp only [generalRunAux, hd] at hrun
      exact Outcome.noConfusion hrun
    | ok df =>
      simp only [generalRunAux, hd] at hrun
      obtain ⟨rows, hdf⟩ := read_general_ok doc df hd
      subst hdf
      exact ih _ out (concat_preserves_goodAcc acc rows hacc) hrun r hr

/-- C10: the general CSV variant selects rows with `df.dropna()` and no
threshold — a row is retained iff every one of its three fields is
non-null (neither the best-row nor the threshold-2 policy) — and
consequently every row of the aggregate written to `linkedin.csv`
has zero null fields. -/
theorem general_variant_dropna_spec (df : PDF)
    (hlen : df.index.length = df.rows.length)
    (docs : List (List (Option PyVal))) (out : PDF) :
    (dropna_any df).rows =
      df.rows.filter (fun r => decide (nanCount r = 0)) ∧
    (get_all_informations_general docs = .ok out →
      ∀ r ∈ out.rows, nanCount r = 0) := by
  constructor
  · dsimp [dropna_any]
    exact zip_filter_nonan _ _ hlen
  · intro hrun
    exact generalRunAux_nonan docs emptyPDF out (Or.inl ⟨rfl, rfl⟩)
      (by simpa [get_all_informations_general] using hrun)

/-- A 3-column frame with one full row and one row with two nulls. -/
def dfW10 : PDF :=
  ⟨generalCols, [0, 1],
   [[.str "A", .str "B", .str "u"], [.str "C", .none, .none]]⟩

/-- A general-variant payload with those same two person records. -/
def payloadG : PyVal :=
  .dict [("included", .list
    [.dict [("title", .dict [("text", .str "A")]),
            ("primarySubtitle", .dict [("text", .str "B")]),
            ("bserpEntityNavigationalUrl", .str "u")],
     .dict [("title", .dict [("text", .str "C")])]])]

/-- A document whose code block at index 16 parses to `payloadG`. -/
def docG : List (Option PyVal) :=
  List.replicate 16 Option.none ++ [Option.some payloadG]

/-- The one-row aggregate the general run produces from `docG`. -/
def outG : PDF := ⟨generalCols, [0], [[.str "A", .str "B", .str "u"]]⟩

/-- C10 witness: of the two extracted rows only the fully populated one
survives `dropna()` into the final aggregate. -/
theorem general_variant_dropna_spec_witness :
    dfW10.index.length = dfW10.rows.length ∧
    ((dropna_any dfW10).rows =
      dfW10.rows.filter (fun r => decide (nanCount r = 0)) ∧
     (get_all_informations_general [docG] = .ok outG →
       ∀ r ∈ outG.rows, nanCount r = 0)) ∧
    get_all_informations_general [docG] = .ok outG :=
  ⟨rfl, general_variant_dropna_spec dfW10 rfl [docG] outG, rfl⟩

/-- Paths of found files are never empty. -/
theorem isFileAt_ne_nil {es : FSList} {p : List String}
    (h : IsFileAt es p) : p ≠ [] := by
  induction h with
  | headFile n rest => simp
  | headDir n cs rest q _ _ => simp
  | tail e rest q _ ih => exact ih

/-- On a longer path, `lastHtml` ignores the head component. -/
theorem lastHtml_cons (n : String) (q : List String) (h : q ≠ []) :
    lastHtml (n :: q) = lastHtml q := by
  cases q with
  | nil => exact absurd rfl h
  | cons a b => rfl

/-- `IsFileAt` on a cons listing splits into head and tail. -/
theorem isFileAt_cons (e : FSEntry) (rest : FSList) (p : List String) :
    IsFileAt (.cons e rest) p ↔ entryFileProp e p ∨ IsFileAt rest p := by
  constructor
  · intro h
    cases h with
    | headFile n r => exact Or.inl rfl
    | headDir n cs r q hq => exact Or.inl ⟨q, rfl, hq⟩
    | tail e2 r q ht => exact Or.inr ht
  · intro h
    rcases h with he | ht
    · cases e with
      | file n =>
        simp only [entryFileProp] at he
        subst he
        exact .headFile n rest
      | dir n cs =>
        obtain ⟨q, rfl, hq⟩ := he
        exact .headDir n cs rest q hq
    · exact .tail e rest p ht

mutual
/-- Membership of `filesOfEntry` is the head case of `IsFileAt`. -/
theorem memFilesEntry (e : FSEntry) (p : List String) :
    p ∈ filesOfEntry e ↔ entryFileProp e p := by
  cases e with
  | file n => simp [filesOfEntry, entryFileProp]
  | dir n cs =>
    simp only [filesOfEntry, entryFileProp, List.mem_map]
    constructor
    · rintro ⟨q, hq, rfl⟩
      exact ⟨q, rfl, (memFilesList cs q).mp hq⟩
    · rintro ⟨q, rfl, hq⟩
      exact ⟨q, (memFilesList cs q).mpr hq, rfl⟩
/-- `get_all_files_in_folder` yields exactly the recursively found
files. -/
theorem memFilesList (es : FSList) (p : List String) :
    p ∈ get_all_files_in_folder es ↔ IsFileAt es p := by
  cases es with
  | nil =>
    constructor
    · intro h
      simp [get_all_files_in_folder] at h
    · intro h
      cases h
  | cons e rest =>
    rw [get_all_files_in_folder, List.mem_append, isFileAt_cons]
    exact or_congr (memFilesEntry e p) (memFilesList rest p)
end

mutual
/-- Membership of `rglobHtmlEntry`, when no directory name matches. -/
theorem memGlobEntry (e : FSEntry) (p : List String)
    (hnd : noHtmlDirsEntry e = true) :
    p ∈ rglobHtmlEntry e ↔ entryFileProp e p ∧ lastHtml p = true := by
  cases e with
  | file n =>
    simp only [rglobHtmlEntry, entryFileProp]
    cases hh : endsWithHtml n with
    | true =>
      rw [if_pos rfl]
      simp only [List.mem_singleton]
      constructor
      · rintro rfl
        exact ⟨rfl, by simp [lastHtml, hh]⟩
      · rintro ⟨rfl, _⟩
        rfl
    | false =>
      rw [if_neg (by simp)]
      constructor
      · intro h
        exact absurd h (List.not_mem_nil p)
      · rintro ⟨rfl, hl⟩
        simp [lastHtml, hh] at hl
  | dir n cs =>
    simp only [noHtmlDirsEntry, Bool.and_eq_true, Bool.not_eq_true'] at hnd
    obtain ⟨hn, hcs⟩ := hnd
    rw [rglobHtmlEntry, if_neg (by simp [hn])]
    simp only [List.nil_append, List.mem_map, entryFileProp]
    constructor
    · rintro ⟨q, hq, rfl⟩
      have hfull := (memGlobList cs q hcs).mp hq
      have hqne := isFileAt_ne_nil hfull.1
      refine ⟨⟨q, rfl, hfull.1⟩, ?_⟩
      rw [lastHtml_cons n q hqne]
      exact hfull.2
    · rintro ⟨⟨q, rfl, hq⟩, hl⟩
      have hqne := isFileAt_ne_nil hq
      rw [lastHtml_cons n q hqne] at hl
      exact ⟨q, (memGlobList cs q hcs).mpr ⟨hq, hl⟩, rfl⟩
/-- `rglobHtml` yields exactly the recursively found files with a
`*.html` name, when no directory name matches the pattern. -/
theorem memGlobList (es : FSList) (p : List String)
    (hnd : noHtmlDirs es = true) :
    p ∈ rglobHtml es ↔ IsFileAt es p ∧ lastHtml p = true := by
  cases es with
  | nil =>
    constructor
    · intro h
      simp [rglobHtml] at h
    · rintro ⟨h, _⟩
      cases h
  | cons e rest =>
    simp only [noHtmlDirs, Bool.and_eq_true] at hnd
    obtain ⟨he, hrest⟩ := hnd
    rw [rglobHtml, List.mem_append, isFileAt_cons]
    constructor
    · rintro (h1 | h2)
      · have := (memGlobEntry e p he).mp h1
        exact ⟨Or.inl this.1, this.2⟩
      · have := (memGlobList rest p hrest).mp h2
        exact ⟨Or.inr this.1, this.2⟩
    · rintro ⟨h1 | h1, hl⟩
      · exact Or.inl ((memGlobEntry e p he).mpr ⟨h1, hl⟩)
      · exact Or.inr ((memGlobList rest p hrest).mpr ⟨h1, hl⟩)
end

/-- C8: File Discovery produces exactly the files found recursively
(including all subdirectories): the general variant
(`get_all_files_in_folder`) yields every file regardless of extension,
while the person/company variants (`rglob`) yield exactly the paths with
a `*.html` final component (assuming, as on real data, no directory is
itself named `*.html`).  The functions are pure; I/O errors are outside
the model (the source does not catch them). -/
theorem file_discovery_spec (es : FSList) (p : List String) :
    (p ∈ get_all_files_in_folder es ↔ IsFileAt es p) ∧
    (noHtmlDirs es = true →
      (p ∈ rglobHtml es ↔ IsFileAt es p ∧ lastHtml p = true)) :=
  ⟨memFilesList es p, fun h => memGlobList es p h⟩

/-- A small tree: a root html file and a subdirectory holding a text
file and another html file. -/
def esW : FSList :=
  .cons (.file "a.html")
    (.cons (.dir "sub"
      (.cons (.file "b.txt") (.cons (.file "c.html") .nil)))
      .nil)

/-- C8 witness: discovery on a concrete two-level tree. -/
theorem file_discovery_spec_witness :
    noHtmlDirs esW = true ∧
    (["a.html"] ∈ get_all_files_in_folder esW ↔ IsFileAt esW ["a.html"]) ∧
    (["sub", "c.html"] ∈ rglobHtml esW ↔
      IsFileAt esW ["sub", "c.html"] ∧ lastHtml ["sub", "c.html"] = true) :=
  ⟨rfl, (file_discovery_spec esW ["a.html"]).1,
   (file_discovery_spec esW ["sub", "c.html"]).2 rfl⟩

/-- A 17-entry code-block list whose index-14 entry fails to parse and
whose index-16 entry parses. -/
def cbList : List (Option PyVal) :=
  List.replicate 14 Option.none ++
  [Option.none, Option.none, Option.some (PyVal.str "payload")]

/-- C6 witness: on `cbList` the locator skips the failing candidate 14
and uses the parse of candidate 16. -/
theorem person_payload_locator_spec_witness :
    (cbList[14]? = Option.some Option.none ∧
     cbList[16]? = Option.some (Option.some (PyVal.str "payload"))) ∧
    locate_payload_person cbList = .ok (PyVal.str "payload") :=
  ⟨⟨rfl, rfl⟩,
   ((person_payload_locator_spec cbList (PyVal.str "payload") []).2.1
     rfl rfl)⟩

end NeonCRM

